import Mathlib

/-!
Shallow embedding of the AI-news post pipeline
(`scripts/update_posts.py`, `scripts/rehydrate_posts.py`) used to check the
natural-language specification against the code.  Strings are modelled as
`List Char`; the filesystem as an association list of path/content pairs;
network and hash effects as explicit oracle parameters.
-/

set_option maxRecDepth 100000
set_option maxHeartbeats 3200000

/-- Strings of the Python program, modelled as lists of characters. -/
abbrev Str := List Char

/-- Python's `\s` whitespace class (ASCII part, as used by `re.sub` and `str.strip`). -/
def isSpacePy (c : Char) : Bool :=
  c = ' ' ∨ c = '\t' ∨ c = '\n' ∨ c = '\r' ∨ c = '\x0b' ∨ c = '\x0c'

/-- Python `str.lower`, character-wise (ASCII, which covers every string the code compares). -/
def toLowerStr (s : Str) : Str := s.map Char.toLower

/-- `startsWithB pat s` is Python's `s.startswith(pat)`. -/
def startsWithB : Str → Str → Bool
  | [], _ => true
  | _ :: _, [] => false
  | p :: ps, c :: cs => p == c && startsWithB ps cs

/-- `isSubB pat s` is Python's `pat in s` (contiguous substring test). -/
def isSubB (pat : Str) : Str → Bool
  | [] => pat.isEmpty
  | c :: cs => startsWithB pat (c :: cs) || isSubB pat cs

/-- One step of whitespace-run collapapsing, used right-to-left. -/
def csStep (c : Char) (acc : Str) : Str :=
  if isSpacePy c then (if acc.head? = some ' ' then acc else ' ' :: acc)
  else c :: acc

/-- `re.sub(r"\s+", " ", s)`: every maximal whitespace run becomes one space. -/
def collapseWS (s : Str) : Str := s.foldr csStep []

/-- Python `str.lstrip()` (whitespace). -/
def trimL (s : Str) : Str := s.dropWhile isSpacePy

/-- Python `str.rstrip()` (whitespace). -/
def trimR : Str → Str
  | [] => []
  | c :: rest =>
    let r := trimR rest
    if r = [] ∧ isSpacePy c then [] else c :: r

/-- Python `str.strip()` (whitespace both ends). -/
def pyStrip (s : Str) : Str := trimR (trimL s)

/-- `clean_text` from `update_posts.py`: collapse whitespace runs, then strip. -/
def clean_text (s : Str) : Str := pyStrip (collapseWS s)

/-- The paywall / low-value marker phrases of `has_low_value_markers`. -/
def MARKERS : List Str :=
  ["only available in paid plans".data,
   "subscribe to read".data,
   "sign in to continue".data,
   "under construction".data]

/-- `has_low_value_markers` from `update_posts.py`. -/
def has_low_value_markers (t : Str) : Bool :=
  MARKERS.any (fun m => isSubB m (toLowerStr t))

/-- `too_similar` from `update_posts.py`. -/
def too_similar (a b : Str) : Bool :=
  let a' := toLowerStr (clean_text a)
  let b' := toLowerStr (clean_text b)
  a' == b' || (!a'.isEmpty && !b'.isEmpty && (isSubB a' b' || isSubB b' a'))

/-- `shorten` from `update_posts.py`: clean, and truncate to `maxLen` with an ellipsis. -/
def shorten (s : Str) (maxLen : Nat) : Str :=
  let s := clean_text s
  if s.length ≤ maxLen then s
  else trimR (s.take (maxLen - 1)) ++ ['…']

/-- `slugify` (python-slugify, ASCII model): lower-case, replace each
non-alphanumeric character by a separator, join the words with hyphens. -/
def slugify (s : Str) : Str :=
  let sep := (toLowerStr s).map (fun c => if c.isAlphanum then c else ' ')
  List.intercalate ['-'] ((sep.splitOnP (fun c => c = ' ')).filter (fun w => ¬ w.isEmpty))

/-- `make_filename` from `update_posts.py`: `_posts/YYYY-MM-DD-slug.md`;
`today` stands for `datetime.now(timezone.utc).date().isoformat()`. -/
def make_filename (title : Str) (dateStr : Str) (today : Str) : Str :=
  let datePart := (if dateStr = [] then today else dateStr).take 10
  let slug := (slugify title).take 80
  let slug := if slug = [] then "post".data else slug
  "_posts/".data ++ datePart ++ "-".data ++ slug ++ ".md".data

/-- Python's `a or b` on strings: `b` when `a` is empty. -/
def orStr (a b : Str) : Str := if a = [] then b else a

/-- Does a `[.;]\s+` separator of `re.split` start here (`c` then whitespace)? -/
def sepHere (c : Char) (rest : Str) : Bool :=
  (c == '.' || c == ';') && (match rest.head? with | some h => isSpacePy h | none => false)

/-- Scanner for `re.split(r"[.;]\s+", s)`.  The `skip` flag is true while the
greedy whitespace run of a just-matched separator is still being consumed. -/
def spAux (skip : Bool) : Str → List Str
  | [] => [[]]
  | c :: rest =>
    if skip ∧ isSpacePy c then spAux true rest
    else if sepHere c rest then [] :: spAux true rest
    else
      match spAux false rest with
      | [] => [[c]]
      | p :: ps => (c :: p) :: ps

/-- `re.split(r"[.;]\s+", s)`: split at a punctuation mark followed by
whitespace, the whole separator (greedy whitespace run included) removed. -/
def splitPunct (s : Str) : List Str := spAux false s

/-- Python `"\n".join`. -/
def joinNl : List Str → Str
  | [] => []
  | [p] => p
  | p :: q :: ps => p ++ '\n' :: joinNl (q :: ps)

/-- Python `"\n\n".join`. -/
def joinNl2 : List Str → Str
  | [] => []
  | [p] => p
  | p :: q :: ps => p ++ '\n' :: '\n' :: joinNl2 (q :: ps)

/-- The "Por que importa" bullet selection of `enrich_text`. -/
def whyList (title : Str) : List Str :=
  let tl := toLowerStr title
  let w1 : List Str :=
    if ["stock".data, "earnings".data, "valuation".data, "market".data].any
        (fun k => isSubB k tl) then
      ["Impacto nos mercados e na avaliação de empresas.".data] else []
  let w2 : List Str :=
    if ["policy".data, "regulation".data, "law".data, "ban".data].any
        (fun k => isSubB k tl) then
      ["Mudanças regulatórias podem redefinir o panorama competitivo.".data] else []
  let w3 : List Str :=
    if ["chip".data, "gpu".data, "hardware".data, "inference".data].any
        (fun k => isSubB k tl) then
      ["Infraestrutura de hardware influencia performance e custo de IA.".data] else []
  let w4 : List Str :=
    if ["research".data, "paper".data, "breakthrough".data, "study".data].any
        (fun k => isSubB k tl) then
      ["Avanços de investigação podem abrir novos casos de uso.".data] else []
  let why := w1 ++ w2 ++ w3 ++ w4
  if why = [] then ["Relevante para o ecossistema de IA e seus casos de uso.".data] else why

/-- The "Detalhes rápidos" bullet extraction of `enrich_text`. -/
def bulletsOf (base : Str) : List Str :=
  ((splitPunct base).take 4).filterMap (fun part =>
    let p := clean_text part
    if 25 ≤ p.length ∧ p.length ≤ 220 then some p else none)

/-- `enrich_text` from `update_posts.py`: the Markdown body of a post. -/
def enrich_text (title desc content source link : Str) : Str :=
  let base := orStr (clean_text content) (clean_text desc)
  let base := shorten base 700
  let why := whyList title
  let bullets := bulletsOf base
  let tlPiece := orStr (shorten base 240)
    "Resumo breve do que foi anunciado/aconteceu no mundo da IA.".data
  let pieces := ["### TL;DR".data, tlPiece, "\n### Por que importa".data]
      ++ why.map (fun w => "- ".data ++ w)
      ++ (if bullets = [] then []
          else "\n### Detalhes rápidos".data :: bullets.map (fun b => "- ".data ++ b))
      ++ ["\n> Fonte: ".data, "[".data ++ source ++ "](".data ++ link ++ ")".data]
  pyStrip (joinNl pieces)

/-- The canonical article shape built by `fetch_articles` (`item_norm`). -/
structure Article where
  title : Str
  description : Str
  content : Str
  link : Str
  source_id : Str
  image : Str
  pubDate : Str
deriving DecidableEq

/-- A raw provider record; each field is `safe_get`'s view of the payload
(absent key → `none`).  `sourceIconNested` is `safe_get(item, "source", "icon")`. -/
structure RawItem where
  title : Option Str := none
  description : Option Str := none
  content : Option Str := none
  link : Option Str := none
  url : Option Str := none
  source_id : Option Str := none
  source : Option Str := none
  pubDate : Option Str := none
  published_at : Option Str := none
  image_url : Option Str := none
  image : Option Str := none
  source_icon : Option Str := none
  sourceIconNested : Option Str := none
deriving DecidableEq

/-- `GENERIC_FALLBACK = "/assets/ai-hero.svg"`. -/
def GENERIC_FALLBACK : Str := "/assets/ai-hero.svg".data

/-- The per-item body of the `fetch_articles` loop (lines 309-344 of
`update_posts.py`): normalization plus the quality filter; `none` is the
loop's `continue` (the item is rejected).  `pickImg` stands for
`pick_image_for_article` and `now` for the UTC-now timestamp string. -/
def processItem (pickImg : RawItem → Str → Str → Str) (now : Str)
    (item : RawItem) : Option Article :=
  let title := clean_text (item.title.getD [])
  let desc := clean_text (item.description.getD [])
  let content := clean_text (item.content.getD [])
  let link := orStr (clean_text (item.link.getD [])) (clean_text (item.url.getD []))
  let sourceId := orStr (clean_text (item.source_id.getD [])) (clean_text (item.source.getD []))
  if title = [] ∨ link = [] then none
  else if has_low_value_markers desc ∨ has_low_value_markers content
      ∨ has_low_value_markers title then none
  else if too_similar title desc ∧ desc.length < 60 then none
  else
    let chosenImage := pickImg item title desc
    let pub := orStr (clean_text (item.pubDate.getD []))
      (orStr (clean_text (item.published_at.getD [])) now)
    some { title := title, description := desc, content := content, link := link,
           source_id := orStr sourceId "source".data,
           image := orStr chosenImage GENERIC_FALLBACK,
           pubDate := pub }

/-- Python `s.replace('"', '\\"')`. -/
def escapeQuotes (s : Str) : Str :=
  s.flatMap (fun c => if c = '"' then ['\\', '"'] else [c])

/-- `build_markdown` from `update_posts.py`.  `today` stands for
`datetime.now(timezone.utc).date().isoformat()`, the run date. -/
def build_markdown (a : Article) (today : Str) : Str :=
  let body := enrich_text a.title a.description a.content a.source_id a.link
  let safeTitle := escapeQuotes a.title
  let safeExcerpt := escapeQuotes a.description
  let fmLines : List Str := [
    "---".data,
    "layout: post".data,
    "title: \"".data ++ safeTitle ++ "\"".data,
    "date: ".data ++ today,
    "excerpt: \"".data ++ shorten safeExcerpt 300 ++ "\"".data,
    "categories: [ai, news]".data,
    "image: \"".data ++ orStr a.image GENERIC_FALLBACK ++ "\"".data,
    "source: \"".data ++ escapeQuotes (orStr a.source_id "source".data) ++ "\"".data,
    "source_url: \"".data ++ a.link ++ "\"".data,
    "---".data]
  joinNl fmLines ++ "\n\n".data ++ body ++ "\n".data

/-- The post directory, as an association list of path/content pairs. -/
abbrev FS := List (Str × Str)

/-- `os.path.exists` on the modelled post directory. -/
def fsHas (fs : FS) (p : Str) : Bool := fs.any (fun e => e.1 == p)

/-- `write_post` from `update_posts.py`: skip (`none`, "not written") when the
deterministic filename already exists, otherwise write the file. -/
def write_post (fs : FS) (a : Article) (today : Str) : FS × Option Str :=
  let path := make_filename a.title a.pubDate today
  if fsHas fs path then (fs, none)
  else ((path, build_markdown a today) :: fs, some path)

/-- The write loop of `main`: each article through `write_post` in order. -/
def runBatch (fs : FS) (arts : List Article) (today : Str) : FS :=
  arts.foldl (fun f a => (write_post f a today).1) fs

/-- `MAX_POSTS = 5`. -/
def MAX_POSTS : Nat := 5

/-- `fetch_articles`' accumulation: normalize/filter each raw item, stop at
`MAX_POSTS` collected. -/
def collectArticles (pickImg : RawItem → Str → Str → Str) (now : Str)
    (items : List RawItem) : List Article :=
  (items.filterMap (processItem pickImg now)).take MAX_POSTS

/-- `main` from `update_posts.py` as a function of the fetched raw records:
result is `(exit code, post directory)`.  `.error` is the fatal path (missing
API key raises and the handler calls `sys.exit(1)`); an empty article list is
`sys.exit(0)`; otherwise the write loop runs and the process ends normally
(exit 0) whether or not anything was created. -/
def mainRun (pickImg : RawItem → Str → Str → Str) (now today : Str) (fs : FS)
    (fetched : Except Str (List RawItem)) : Nat × FS :=
  match fetched with
  | .error _ => (1, fs)
  | .ok items =>
    let arts := collectArticles pickImg now items
    if arts.isEmpty then (0, fs) else (0, runBatch fs arts today)

/-- A remote image response: declared content type, URL path (for the
filename), and whether the payload overran the 3 MB cap. -/
structure ImgResp where
  contentType : Str
  urlPath : Str
  tooBig : Bool
deriving DecidableEq

/-- `IMG_EXT_WHITELIST`. -/
def IMG_EXT_WHITELIST : List Str :=
  [".jpg".data, ".jpeg".data, ".png".data, ".webp".data, ".gif".data, ".svg".data]

/-- `guess_ext_from_ct` from `update_posts.py`. -/
def guess_ext_from_ct (ct : Str) : Str :=
  if ct = [] then ".jpg".data
  else
    let c := toLowerStr ct
    if isSubB "svg".data c then ".svg".data
    else if isSubB "webp".data c then ".webp".data
    else if isSubB "png".data c then ".png".data
    else if isSubB "gif".data c then ".gif".data
    else ".jpg".data

/-- `os.path.basename` on a URL path. -/
def basenameOf (p : Str) : Str := (p.reverse.takeWhile (fun c => c ≠ '/')).reverse

/-- `os.path.splitext` on a basename (leading dots never start an extension). -/
def splitExt (b : Str) : Str × Str :=
  let after := b.reverse.takeWhile (fun c => c ≠ '.')
  if after.length = b.length then (b, [])
  else
    let cut := b.length - after.length - 1
    let base0 := b.take cut
    if base0.all (fun c => c = '.') then (b, [])
    else (base0, b.drop cut)

/-- Hex digit value, for percent decoding. -/
def hexVal (c : Char) : Option Nat :=
  if '0' ≤ c ∧ c ≤ '9' then some (c.toNat - '0'.toNat)
  else if 'a' ≤ c ∧ c ≤ 'f' then some (c.toNat - 'a'.toNat + 10)
  else if 'A' ≤ c ∧ c ≤ 'F' then some (c.toNat - 'A'.toNat + 10)
  else none

/-- `urllib.parse.unquote`, byte-level model: `%XX` becomes the coded character. -/
def unquote : Str → Str
  | [] => []
  | '%' :: a :: b :: rest =>
    match hexVal a, hexVal b with
    | some x, some y => Char.ofNat (16 * x + y) :: unquote rest
    | _, _ => '%' :: unquote (a :: b :: rest)
  | c :: rest => c :: unquote rest

/-- `download_and_cache_image` from `update_posts.py`.  `http` is the network
oracle (`none` = request failure), `sha8` the 8-hex-digit SHA1 oracle.  A
success returns the public cache path; any failure returns `none`. -/
def download_and_cache_image (http : Str → Option ImgResp) (sha8 : Str → Str)
    (url title : Str) : Option Str :=
  match http url with
  | none => none
  | some r =>
    if ¬ isSubB "image".data (toLowerStr r.contentType) then none
    else if r.tooBig then none
    else
      let name := unquote (orStr (basenameOf r.urlPath) (slugify title))
      let be := splitExt name
      let ext := if be.2 = [] ∨ ¬ IMG_EXT_WHITELIST.contains (toLowerStr be.2)
        then guess_ext_from_ct r.contentType else be.2
      some ("/assets/cache/".data ++ slugify be.1 ++ "-".data ++ sha8 url ++ ext)

/-- `detect_topic` from `update_posts.py`. -/
def detect_topic (title desc : Str) : Option Str :=
  let t := toLowerStr (title ++ " ".data ++ desc)
  if ["policy".data, "regulation".data, "ban".data, "law".data, "eu ai act".data].any
      (fun k => isSubB k t) then some "policy".data
  else if ["gpu".data, "chip".data, "nvidia".data, "amd".data, "hardware".data,
      "datacenter".data].any (fun k => isSubB k t) then some "chips".data
  else if ["stock".data, "shares".data, "earnings".data, "market".data,
      "valuation".data].any (fun k => isSubB k t) then some "markets".data
  else if ["research".data, "paper".data, "arxiv".data, "breakthrough".data,
      "study".data].any (fun k => isSubB k t) then some "research".data
  else if ["health".data, "medical".data, "doctor".data, "biotech".data,
      "hospital".data].any (fun k => isSubB k t) then some "health".data
  else if ["classroom".data, "education".data, "students".data, "teachers".data,
      "school".data].any (fun k => isSubB k t) then some "edu".data
  else none

/-- `TOPIC_HEROES`. -/
def TOPIC_HEROES : List (Str × Str) :=
  [("policy".data, "/assets/topic-policy.svg".data),
   ("chips".data, "/assets/topic-chips.svg".data),
   ("markets".data, "/assets/topic-markets.svg".data),
   ("research".data, "/assets/topic-research.svg".data),
   ("health".data, "/assets/topic-health.svg".data),
   ("edu".data, "/assets/topic-edu.svg".data)]

/-- `TOPIC_HEROES.get(topic)`. -/
def topicHero (k : Str) : Option Str :=
  (TOPIC_HEROES.find? (fun e => e.1 == k)).map (fun e => e.2)

/-- `ROTATE_CANDIDATES`. -/
def ROTATE_CANDIDATES : List Str :=
  ["/assets/ai-hero-1.svg".data, "/assets/ai-hero-2.svg".data,
   "/assets/ai-hero-3.svg".data, "/assets/ai-hero-4.svg".data,
   "/assets/ai-hero-5.svg".data, "/assets/ai-hero-6.svg".data,
   "/assets/ai-hero-7.svg".data, "/assets/ai-hero-8.svg".data,
   "/assets/ai-hero-9.svg".data]

/-- Python `p.lstrip("/")`. -/
def lstripSlash (p : Str) : Str := p.dropWhile (fun c => c = '/')

/-- `pick_rotating_hero` from `update_posts.py`; `md5n` is the MD5 oracle and
`fileExists` the disk oracle.  The index is always in bounds, so the `getD`
default is never consulted. -/
def pick_rotating_hero (md5n : Str → Nat) (fileExists : Str → Bool)
    (title : Str) : Str :=
  let existing := ROTATE_CANDIDATES.filter (fun p => fileExists (lstripSlash p))
  if existing.isEmpty then GENERIC_FALLBACK
  else existing.getD (md5n title % existing.length) GENERIC_FALLBACK

/-- One candidate URL of the `url_candidates` loop: attempt the download only
for a present `http(s)` URL. -/
def tryImageUrl (dl : Str → Option Str) (u : Option Str) : Option Str :=
  match u with
  | none => none
  | some url =>
    if startsWithB "http://".data url || startsWithB "https://".data url
    then dl url else none

/-- `pick_image_for_article` from `update_posts.py`: provider image, then
topic hero, then rotating hero, then the fixed fallback. -/
def pick_image_for_article (http : Str → Option ImgResp) (sha8 : Str → Str)
    (md5n : Str → Nat) (fileExists : Str → Bool) (item : RawItem)
    (title desc : Str) : Str :=
  let dl := fun url => download_and_cache_image http sha8 url title
  match tryImageUrl dl item.image_url <|> tryImageUrl dl item.image
      <|> tryImageUrl dl item.source_icon <|> tryImageUrl dl item.sourceIconNested with
  | some loc => loc
  | none =>
    match detect_topic title desc with
    | some topic =>
      match topicHero topic with
      | some cand =>
        if fileExists (lstripSlash cand) then cand
        else pick_rotating_hero md5n fileExists title
      | none => pick_rotating_hero md5n fileExists title
    | none => pick_rotating_hero md5n fileExists title

/-- `MIN_BODY_CHARS = 500` from `rehydrate_posts.py`. -/
def MIN_BODY_CHARS : Nat := 500

/-- Length of a `<\s*br\s*/?\s*>` match (case-insensitive) starting right
after a `<`, i.e. the number of characters of `l` the tag consumes. -/
def matchBrLen (l : Str) : Option Nat :=
  let r1 := l.dropWhile isSpacePy
  match r1 with
  | b :: r2 =>
    if b = 'b' ∨ b = 'B' then
      match r2 with
      | r :: r3 =>
        if r = 'r' ∨ r = 'R' then
          let r4 := r3.dropWhile isSpacePy
          let r5 := match r4 with | '/' :: t => t | _ => r4
          let r6 := r5.dropWhile isSpacePy
          match r6 with
          | '>' :: _ => some (l.length - r6.length + 1)
          | _ => none
        else none
      | [] => none
    else none
  | [] => none

/-- Fuel-indexed scanner for the `<br>` substitution (each step consumes at
least one character, so fuel = input length always suffices). -/
def brSubF : Nat → Str → Str
  | 0, l => l
  | _ + 1, [] => []
  | fuel + 1, c :: rest =>
    if c = '<' then
      (match matchBrLen rest with
       | some n => '\n' :: brSubF fuel (rest.drop n)
       | none => '<' :: brSubF fuel rest)
    else c :: brSubF fuel rest

/-- `re.sub(r"<\s*br\s*/?\s*>", "\n", s, flags=re.I)`. -/
def brSub (l : Str) : Str := brSubF l.length l

/-- Fuel-indexed scanner for tag removal. -/
def stripTagsF : Nat → Str → Str
  | 0, l => l
  | _ + 1, [] => []
  | fuel + 1, c :: rest =>
    if c = '<' then
      (let a := rest.takeWhile (fun d => d ≠ '>')
       if a.isEmpty then '<' :: stripTagsF fuel rest
       else if a.length = rest.length then '<' :: stripTagsF fuel rest
       else stripTagsF fuel (rest.drop (a.length + 1)))
    else c :: stripTagsF fuel rest

/-- `re.sub(r"<[^>]+>", "", s)`: drop every `<`…`>` block with at least one
non-`>` character inside. -/
def stripTags (l : Str) : Str := stripTagsF l.length l

/-- `strip_html` from `rehydrate_posts.py`. -/
def strip_html (s : Str) : Str :=
  if s = [] then [] else pyStrip (stripTags (brSub s))

/-- The character set of the bullet-line `line.strip(" •-*–—\t")`. -/
def bulletStripSet : Str := " •-*–—\t".data

/-- Python `s.strip(chars)` for an explicit character set. -/
def stripSet (set s : Str) : Str :=
  let l := s.dropWhile (fun c => set.contains c)
  (l.reverse.dropWhile (fun c => set.contains c)).reverse

/-- Python `s.split("\n")`. -/
def splitNl (s : Str) : List Str := s.splitOnP (fun c => c = '\n')

/-- The key-point bullet loop of `expand_article`: sentence-like raw-content
lines (40–160 chars, not ending in `:`), at most five. -/
def expandBullets (c : Str) : List Str :=
  ((splitNl c).filterMap (fun line =>
    let L := stripSet bulletStripSet line
    if 40 ≤ L.length ∧ L.length ≤ 160 ∧ ¬ (L.getLast? = some ':') then some L
    else none)).take 5

/-- Fuel-indexed scanner for the newline-run squeeze. -/
def squeezeNlF : Nat → Str → Str
  | 0, l => l
  | _ + 1, [] => []
  | fuel + 1, c :: rest =>
    if c = '\n' then
      (if (rest.takeWhile (fun d => d = '\n')).length + 1 ≥ 3 then "\n\n".data
       else List.replicate ((rest.takeWhile (fun d => d = '\n')).length + 1) '\n')
        ++ squeezeNlF fuel (rest.drop (rest.takeWhile (fun d => d = '\n')).length)
    else c :: squeezeNlF fuel rest

/-- `re.sub(r"\n{3,}", "\n\n", s)`: squeeze newline runs of three or more. -/
def squeezeNl (l : Str) : Str := squeezeNlF l.length l

/-- The 2–4 paragraph synthesis of `expand_article` (`rehydrate_posts.py`),
before the minimum-length padding step. -/
def expandCore (title description rawContent source : Str) : Str :=
  let t := strip_html title
  let d := strip_html description
  let c := strip_html rawContent
  let bullets := expandBullets c
  let p1 := if t ≠ [] then
      t ++ ". This article looks at why this story matters for the AI ecosystem and what you should know right now.".data
    else "This article highlights a recent development in artificial intelligence.".data
  let p2 := if d ≠ [] ∧ ¬ (startsWithB "http".data (toLowerStr d) = true) then
      d ++ " Beyond the headline, the update ties into broader momentum around practical AI adoption, model efficiency, and real-world integration.".data
    else if c ≠ [] ∧ c.length > 320 then c.take 300 ++ "...".data
    else "In short, the announcement reflects the steady pace of innovation across the AI stack.".data
  let p3 := if bullets.isEmpty then []
    else "**Key points:**\n".data ++ joinNl ((bullets.take 4).map (fun b => "- ".data ++ b))
  let p4 := "Looking ahead, we expect ongoing iteration and more practical deployments. Source: ".data ++ source ++ ".".data
  let parts := [p1, p2] ++ (if p3 = [] then [] else [p3]) ++ [p4]
  pyStrip (squeezeNl (joinNl2 parts))

/-- The minimum-length padding step of `expand_article`: when the synthesized
body is under `MIN_BODY_CHARS` and raw content exists, append a truncated,
whitespace-collapsed slice of it. -/
def expandPad (body c : Str) : Str :=
  if body.length < MIN_BODY_CHARS ∧ c ≠ [] then
    body ++ "\n\n".data ++ (clean_text c).take 600 ++ "...".data
  else body

/-- `expand_article` from `rehydrate_posts.py`. -/
def expand_article (title description rawContent source : Str) : Str :=
  expandPad (expandCore title description rawContent source) (strip_html rawContent)

/-- Modelled from the spec: the "combined text (title + description + body)"
that §4.2 says is scanned for paywall markers — the three fields joined with
single spaces.  The code has no such combined string; this definition exists
to compare the spec's reading with the per-field checks the code performs. -/
def spec_combined_text (title desc content : Str) : Str :=
  title ++ " ".data ++ desc ++ " ".data ++ content


/-- A string in `clean_text` normal form: no two adjacent spaces, and every
whitespace character is a plain space. -/
def collapsedStr (l : Str) : Prop :=
  l.Chain' (fun a b => ¬(a = ' ' ∧ b = ' ')) ∧ ∀ c ∈ l, isSpacePy c = true → c = ' '

/-- No marker phrase occurs in the lower-cased string (the property
`has_low_value_markers` decides, in `Prop` form). -/
def mFreeP (s : Str) : Prop := ∀ m ∈ MARKERS, ¬ m <:+: toLowerStr s

instance mFreePDec (s : Str) : Decidable (mFreeP s) :=
  inferInstanceAs (Decidable (∀ m ∈ MARKERS, ¬ m <:+: toLowerStr s))

theorem pre_sub {p l : Str} (h : p <+: l) : p <:+: l := by
  obtain ⟨t, ht⟩ := h
  exact ⟨[], t, by simpa using ht⟩

theorem sfx_sub {p l : Str} (h : p <:+ l) : p <:+: l := by
  obtain ⟨t, ht⟩ := h
  exact ⟨t, [], by simpa using ht⟩

theorem startsWithB_iff (p s : Str) : startsWithB p s = true ↔ p <+: s := by
  induction p generalizing s with
  | nil => simp [startsWithB]
  | cons a ps ih =>
    cases s with
    | nil => simp [startsWithB]
    | cons c cs =>
      simp only [startsWithB, Bool.and_eq_true, beq_iff_eq, ih,
        List.cons_prefix_cons]

theorem isSubB_iff (p s : Str) : isSubB p s = true ↔ p <:+: s := by
  induction s with
  | nil => simp [isSubB, List.isEmpty_iff]
  | cons c cs ih =>
    simp only [isSubB, Bool.or_eq_true, startsWithB_iff, ih]
    constructor
    · rintro (h | h)
      · exact pre_sub h
      · exact List.infix_cons h
    · rintro ⟨u, v, huv⟩
      cases u with
      | nil => exact Or.inl ⟨v, huv⟩
      | cons x xs =>
        right
        rw [List.cons_append] at huv
        exact ⟨xs, v, (List.cons.injEq .. ▸ huv).2⟩

theorem sub_map (f : Char → Char) {p s : Str} (h : p <:+: s) :
    p.map f <:+: s.map f := by
  obtain ⟨u, v, rfl⟩ := h
  exact ⟨u.map f, v.map f, by simp⟩

theorem pre_split_char {p u v : Str} {c : Char} (hc : c ∉ p)
    (h : p <+: u ++ c :: v) : p <+: u := by
  induction u generalizing p with
  | nil =>
    cases p with
    | nil => exact List.nil_prefix
    | cons a as =>
      exfalso
      rw [List.nil_append, List.cons_prefix_cons] at h
      exact hc (h.1 ▸ List.mem_cons_self a as)
  | cons x xs ih =>
    cases p with
    | nil => exact List.nil_prefix
    | cons a as =>
      rw [List.cons_append, List.cons_prefix_cons] at h
      rw [List.cons_prefix_cons]
      exact ⟨h.1, ih (fun hmem => hc (List.mem_cons_of_mem a hmem)) h.2⟩

theorem sub_cons_split {m b : Str} {c : Char} (h : m <:+: c :: b) :
    m <+: c :: b ∨ m <:+: b := by
  obtain ⟨u, v, huv⟩ := h
  cases u with
  | nil => exact Or.inl ⟨v, huv⟩
  | cons x xs =>
    right
    rw [List.cons_append] at huv
    exact ⟨xs, v, (List.cons.injEq .. ▸ huv).2⟩

theorem pre_head {m b : Str} {c : Char} (h : m <+: c :: b) (hne : m ≠ []) :
    m.head? = some c := by
  cases m with
  | nil => exact absurd rfl hne
  | cons a as => rw [List.cons_prefix_cons] at h; rw [h.1]; rfl

theorem sub_split_char {m a b : Str} {c : Char} (hne : m ≠ []) (hc : c ∉ m)
    (h : m <:+: a ++ c :: b) : m <:+: a ∨ m <:+: b := by
  induction a generalizing m with
  | nil =>
    rw [List.nil_append] at h
    rcases sub_cons_split h with h' | h'
    · exfalso
      cases m with
      | nil => exact hne rfl
      | cons p ps =>
        have := pre_head h' hne
        simp only [List.head?_cons, Option.some.injEq] at this
        exact hc (this ▸ List.mem_cons_self p ps)
    · exact Or.inr h'
  | cons x xs ih =>
    rw [List.cons_append] at h
    rcases sub_cons_split h with h' | h'
    · cases m with
      | nil => exact absurd rfl hne
      | cons p ps =>
        rw [List.cons_prefix_cons] at h'
        obtain ⟨rfl, hps⟩ := h'
        have hps' : ps <+: xs :=
          pre_split_char (fun hm => hc (List.mem_cons_of_mem p hm)) hps
        exact Or.inl (pre_sub (List.cons_prefix_cons.mpr ⟨rfl, hps'⟩))
    · rcases ih hne hc h' with h'' | h''
      · exact Or.inl (List.infix_cons h'')
      · exact Or.inr h''

theorem sub_snoc_char {m a : Str} {c : Char} (hne : m ≠ []) (hc : c ∉ m)
    (h : m <:+: a ++ [c]) : m <:+: a := by
  rcases sub_split_char hne hc h with h' | h'
  · exact h'
  · exact absurd (List.eq_nil_of_infix_nil h') hne

theorem trimR_pre (l : Str) : trimR l <+: l := by
  induction l with
  | nil => exact List.prefix_refl _
  | cons c rest ih =>
    simp only [trimR]
    split
    · exact List.nil_prefix
    · exact List.cons_prefix_cons.mpr ⟨rfl, ih⟩

theorem trimR_eq_nil {l : Str} :
    trimR l = [] ↔ ∀ c ∈ l, isSpacePy c = true := by
  induction l with
  | nil => simp [trimR]
  | cons c rest ih =>
    constructor
    · intro h x hx
      simp only [trimR] at h
      split at h
      · rename_i hcond
        rcases List.mem_cons.mp hx with rfl | hm
        · exact hcond.2
        · exact ih.mp hcond.1 x hm
      · cases h
    · intro hall
      have h1 : trimR rest = [] :=
        ih.mpr (fun x hx => hall x (List.mem_cons_of_mem c hx))
      have h2 : isSpacePy c = true := hall c (List.mem_cons_self c rest)
      simp [trimR, h1, h2]

theorem trimR_idem (l : Str) : trimR (trimR l) = trimR l := by
  induction l with
  | nil => rfl
  | cons c rest ih =>
    simp only [trimR]
    split
    · rfl
    · rename_i h
      simp only [trimR, ih]
      split
      · rename_i h2
        exact absurd ⟨h2.1, h2.2⟩ h
      · rfl

theorem trimL_sfx (l : Str) : trimL l <:+ l := by
  induction l with
  | nil => exact List.suffix_refl _
  | cons c rest ih =>
    simp only [trimL, List.dropWhile]
    split
    · exact ih.trans (List.suffix_cons c rest)
    · exact List.suffix_refl _

theorem trimL_head? {l : Str} {c : Char} (h : (trimL l).head? = some c) :
    isSpacePy c = false := by
  induction l with
  | nil => simp [trimL] at h
  | cons x rest ih =>
    simp only [trimL, List.dropWhile] at h
    split at h
    · exact ih h
    · rename_i hx
      simp only [List.head?_cons, Option.some.injEq] at h
      subst h
      simpa using hx

theorem mem_trimL {l : Str} {c : Char} (hc : c ∈ l) (hs : isSpacePy c = false) :
    c ∈ trimL l := by
  induction l with
  | nil => cases hc
  | cons x rest ih =>
    simp only [trimL, List.dropWhile]
    split
    · rename_i hx
      rcases List.mem_cons.mp hc with rfl | hm
      · rw [hs] at hx; cases hx
      · exact ih hm
    · exact hc

theorem trimL_id_of_head {l : Str}
    (h : ∀ c, l.head? = some c → isSpacePy c = false) : trimL l = l := by
  cases l with
  | nil => rfl
  | cons x rest =>
    simp only [trimL, List.dropWhile]
    rw [h x rfl]

theorem pyStrip_sub (l : Str) : pyStrip l <:+: l :=
  (pre_sub (trimR_pre (trimL l))).trans (sfx_sub (trimL_sfx l))

theorem pyStrip_idem (l : Str) : pyStrip (pyStrip l) = pyStrip l := by
  have hL : trimL (trimR (trimL l)) = trimR (trimL l) := by
    apply trimL_id_of_head
    intro c hc
    have hpre := trimR_pre (trimL l)
    cases htl : trimR (trimL l) with
    | nil => rw [htl] at hc; cases hc
    | cons y ys =>
      rw [htl] at hc hpre
      simp only [List.head?_cons, Option.some.injEq] at hc
      subst hc
      cases htll : trimL l with
      | nil =>
        rw [htll] at hpre
        exact absurd hpre (by simp)
      | cons z zs =>
        rw [htll] at hpre
        rw [List.cons_prefix_cons] at hpre
        rw [hpre.1]
        exact trimL_head? (show (trimL l).head? = some z by rw [htll]; rfl)
  show trimR (trimL (trimR (trimL l))) = trimR (trimL l)
  rw [hL, trimR_idem]

theorem pyStrip_ne_nil {l : Str} {c : Char} (hc : c ∈ l)
    (hs : isSpacePy c = false) : pyStrip l ≠ [] := by
  intro h
  have hmem : c ∈ trimL l := mem_trimL hc hs
  have := trimR_eq_nil.mp h c hmem
  rw [hs] at this
  cases this

theorem collapseWS_cons (c : Char) (l : Str) :
    collapseWS (c :: l) = csStep c (collapseWS l) := rfl

theorem collapsed_collapseWS (l : Str) : collapsedStr (collapseWS l) := by
  induction l with
  | nil => exact ⟨List.chain'_nil, by intro c hc; cases hc⟩
  | cons c rest ih =>
    obtain ⟨hch, hws⟩ := ih
    rw [collapseWS_cons]
    unfold csStep
    split
    · rename_i hc
      split
      · exact ⟨hch, hws⟩
      · rename_i hhead
        refine ⟨List.chain'_cons'.mpr ⟨?_, hch⟩, ?_⟩
        · rintro y hy ⟨-, h2⟩
          exact hhead (h2 ▸ hy)
        · intro x hx hsx
          rcases List.mem_cons.mp hx with rfl | hm
          · rfl
          · exact hws x hm hsx
    · rename_i hc
      refine ⟨List.chain'_cons'.mpr ⟨?_, hch⟩, ?_⟩
      · rintro y hy ⟨h1, -⟩
        exact hc (by rw [h1]; decide)
      · intro x hx hsx
        rcases List.mem_cons.mp hx with rfl | hm
        · exact absurd hsx hc
        · exact hws x hm hsx

theorem collapseWS_eq_self {l : Str} (h : collapsedStr l) : collapseWS l = l := by
  induction l with
  | nil => rfl
  | cons c rest ih =>
    obtain ⟨hch, hws⟩ := h
    have ih' : collapseWS rest = rest :=
      ih ⟨hch.tail, fun x hx => hws x (List.mem_cons_of_mem c hx)⟩
    rw [collapseWS_cons, ih']
    unfold csStep
    split
    · rename_i hc
      have hcsp : c = ' ' := hws c (List.mem_cons_self c rest) hc
      split
      · rename_i hhead
        exfalso
        rw [List.chain'_cons'] at hch
        exact hch.1 ' ' hhead ⟨hcsp, rfl⟩
      · rw [hcsp]
    · rfl

theorem collapsed_of_sub {m l : Str} (hs : m <:+: l) (h : collapsedStr l) :
    collapsedStr m :=
  ⟨ List.Chain'.infix h.1 hs, fun c hc hsp => h.2 c (hs.subset hc) hsp⟩

theorem collapsed_clean (s : Str) : collapsedStr (clean_text s) :=
  collapsed_of_sub (pyStrip_sub _) (collapsed_collapseWS s)

theorem clean_of_collapsed {s : Str} (h : collapsedStr s) :
    clean_text s = pyStrip s := by
  show pyStrip (collapseWS s) = pyStrip s
  rw [collapseWS_eq_self h]

theorem clean_idem (s : Str) : clean_text (clean_text s) = clean_text s := by
  rw [clean_of_collapsed (collapsed_clean s)]
  show pyStrip (pyStrip (collapseWS s)) = pyStrip (collapseWS s)
  rw [pyStrip_idem]

theorem hasLVM_false_iff (s : Str) :
    has_low_value_markers s = false ↔ mFreeP s := by
  rw [← Bool.not_eq_true, has_low_value_markers, List.any_eq_true]
  constructor
  · intro h m hm hsub
    exact h ⟨m, hm, (isSubB_iff ..).mpr hsub⟩
  · rintro h ⟨m, hm, hsb⟩
    exact h m hm ((isSubB_iff ..).mp hsb)

theorem mFree_of_sub {s t : Str} (hs : s <:+: t) (h : mFreeP t) : mFreeP s :=
  fun m hm hsub => h m hm (hsub.trans (sub_map Char.toLower hs))

theorem markers_ne_nil : ∀ m ∈ MARKERS, m ≠ [] := by decide

theorem markers_no_nl : ∀ m ∈ MARKERS, '\n' ∉ m := by decide

theorem markers_no_hellip : ∀ m ∈ MARKERS, '…' ∉ m := by decide

theorem markers_no_bracket :
    ∀ m ∈ MARKERS, '[' ∉ m ∧ ']' ∉ m ∧ '(' ∉ m ∧ ')' ∉ m := by decide

theorem markers_head_chars :
    ∀ m ∈ MARKERS, m.head? ≠ some '-' ∧ m.head? ≠ some ' ' ∧ m.head? ≠ some '(' := by
  decide

theorem mFree_append_nl {a b : Str} (ha : mFreeP a) (hb : mFreeP b) :
    mFreeP (a ++ '\n' :: b) := by
  intro m hm hsub
  rw [toLowerStr, List.map_append, List.map_cons,
    show Char.toLower '\n' = '\n' from by decide] at hsub
  rcases sub_split_char (markers_ne_nil m hm) (markers_no_nl m hm) hsub with h | h
  · exact ha m hm h
  · exact hb m hm h

theorem mFree_joinNl {ps : List Str} (h : ∀ p ∈ ps, mFreeP p) :
    mFreeP (joinNl ps) := by
  induction ps with
  | nil =>
    intro m hm hsub
    exact markers_ne_nil m hm (List.eq_nil_of_infix_nil hsub)
  | cons p ps ih =>
    cases ps with
    | nil => exact h p (List.mem_cons_self p [])
    | cons q qs =>
      rw [show joinNl (p :: q :: qs) = p ++ '\n' :: joinNl (q :: qs) from rfl]
      exact mFree_append_nl (h p (List.mem_cons_self p _))
        (ih (fun r hr => h r (List.mem_cons_of_mem p hr)))

theorem mFree_snoc_char {a : Str} {c : Char}
    (hc : ∀ m ∈ MARKERS, Char.toLower c ∉ m) (h : mFreeP a) :
    mFreeP (a ++ [c]) := by
  intro m hm hsub
  rw [toLowerStr, List.map_append, List.map_cons, List.map_nil] at hsub
  exact h m hm (sub_snoc_char (markers_ne_nil m hm) (hc m hm) hsub)

theorem mFree_cons_char {b : Str} {c : Char}
    (hhead : ∀ m ∈ MARKERS, m.head? ≠ some (Char.toLower c)) (h : mFreeP b) :
    mFreeP (c :: b) := by
  intro m hm hsub
  rw [toLowerStr, List.map_cons] at hsub
  rcases sub_cons_split hsub with h' | h'
  · exact hhead m hm (pre_head h' (markers_ne_nil m hm))
  · exact h m hm h'

theorem mFree_dash {w : Str} (h : mFreeP w) : mFreeP ("- ".data ++ w) := by
  have h1 : mFreeP (' ' :: w) :=
    mFree_cons_char (fun m hm => (markers_head_chars m hm).2.1) h
  exact mFree_cons_char (fun m hm => (markers_head_chars m hm).1) h1

theorem mFree_srclink {s l : Str} (hs : mFreeP s) (hl : mFreeP l) :
    mFreeP ("[".data ++ s ++ "](".data ++ l ++ ")".data) := by
  intro m hm hsub
  have hne := markers_ne_nil m hm
  obtain ⟨hb1, hb2, hb3, hb4⟩ := markers_no_bracket m hm
  rw [toLowerStr] at hsub
  simp only [List.map_append, List.map_cons, List.map_nil, List.append_assoc,
    List.cons_append, List.nil_append,
    show Char.toLower '[' = '[' from by decide,
    show Char.toLower ']' = ']' from by decide,
    show Char.toLower '(' = '(' from by decide,
    show Char.toLower ')' = ')' from by decide] at hsub
  rcases sub_cons_split hsub with h' | h'
  · cases m with
    | nil => exact hne rfl
    | cons x xs =>
      have hx := pre_head h' hne
      simp only [List.head?_cons, Option.some.injEq] at hx
      exact hb1 (hx ▸ List.mem_cons_self x xs)
  · rcases sub_split_char hne hb2 h' with h'' | h''
    · exact hs m hm h''
    · rcases sub_cons_split h'' with h3 | h3
      · cases m with
        | nil => exact hne rfl
        | cons x xs =>
          have := pre_head h3 hne
          simp only [List.head?_cons, Option.some.injEq] at this
          exact hb3 (this ▸ List.mem_cons_self x xs)
      · exact hl m hm (sub_snoc_char hne hb4 h3)

theorem mFree_clean_of_collapsed {x : Str} (hx : mFreeP x) (hcol : collapsedStr x) :
    mFreeP (clean_text x) := by
  rw [clean_of_collapsed hcol]
  exact mFree_of_sub (pyStrip_sub x) hx

theorem shorten_eq (x : Str) (n : Nat) :
    shorten x n = if (clean_text x).length ≤ n then clean_text x
      else trimR ((clean_text x).take (n - 1)) ++ ['…'] := rfl

theorem mFree_shorten {x : Str} (hx : mFreeP x) (hcol : collapsedStr x) (n : Nat) :
    mFreeP (shorten x n) := by
  have hc : mFreeP (clean_text x) := mFree_clean_of_collapsed hx hcol
  rw [shorten_eq]
  split
  · exact hc
  · refine mFree_snoc_char (fun m hm => ?_) ?_
    · rw [show Char.toLower '…' = '…' from by decide]
      exact markers_no_hellip m hm
    · exact mFree_of_sub
        (pre_sub ((trimR_pre _).trans (List.take_prefix _ _))) hc

theorem collapsed_shorten (x : Str) (n : Nat) :
    collapsedStr (shorten x n) := by
  have hps : collapsedStr (clean_text x) := collapsed_clean x
  rw [shorten_eq]
  split
  · exact hps
  · have h1 : collapsedStr (trimR ((clean_text x).take (n - 1))) :=
      collapsed_of_sub (pre_sub ((trimR_pre _).trans (List.take_prefix _ _))) hps
    refine ⟨?_, ?_⟩
    · rw [List.chain'_append]
      refine ⟨h1.1, List.chain'_singleton _, ?_⟩
      rintro x hx y hy ⟨-, h2⟩
      simp only [List.head?_cons, Option.mem_def, Option.some.injEq] at hy
      rw [← hy] at h2
      cases h2
    · intro c hc hsp
      rcases List.mem_append.mp hc with hm | hm
      · exact h1.2 c hm hsp
      · simp only [List.mem_singleton] at hm
        subst hm
        cases hsp

theorem spAux_cons (skip : Bool) (c : Char) (rest : Str) :
    spAux skip (c :: rest) =
      (if skip ∧ isSpacePy c then spAux true rest
       else if sepHere c rest then [] :: spAux true rest
       else match spAux false rest with
         | [] => [[c]]
         | p :: ps => (c :: p) :: ps) := rfl

theorem spAux_parts (l : Str) :
    (∃ q qs, spAux false l = q :: qs ∧ q <+: l ∧ ∀ p ∈ qs, p <:+: l) ∧
    (∃ q qs, spAux true l = q :: qs ∧ q <:+: l ∧ ∀ p ∈ qs, p <:+: l) := by
  induction l with
  | nil =>
    refine ⟨⟨[], [], rfl, List.nil_prefix, ?_⟩, ⟨[], [], rfl, List.nil_infix, ?_⟩⟩
    · intro p hp; cases hp
    · intro p hp; cases hp
  | cons c rest ih =>
    obtain ⟨⟨qf, qsf, heqf, hqf, hqsf⟩, ⟨qt, qst, heqt, hqt, hqst⟩⟩ := ih
    constructor
    · rw [spAux_cons]
      split
      · rename_i h
        exact absurd h.1 (by simp)
      · split
        · refine ⟨[], spAux true rest, rfl, List.nil_prefix, ?_⟩
          intro p hp
          rw [heqt] at hp
          rcases List.mem_cons.mp hp with rfl | hm
          · exact List.infix_cons hqt
          · exact List.infix_cons (hqst p hm)
        · rw [heqf]
          refine ⟨c :: qf, qsf, rfl, List.cons_prefix_cons.mpr ⟨rfl, hqf⟩, ?_⟩
          intro p hp
          exact List.infix_cons (hqsf p hp)
    · rw [spAux_cons]
      split
      · rw [heqt]
        refine ⟨qt, qst, rfl, List.infix_cons hqt, ?_⟩
        intro p hp
        exact List.infix_cons (hqst p hp)
      · split
        · refine ⟨[], spAux true rest, rfl, List.nil_infix, ?_⟩
          intro p hp
          rw [heqt] at hp
          rcases List.mem_cons.mp hp with rfl | hm
          · exact List.infix_cons hqt
          · exact List.infix_cons (hqst p hm)
        · rw [heqf]
          refine ⟨c :: qf, qsf, rfl,
            pre_sub (List.cons_prefix_cons.mpr ⟨rfl, hqf⟩), ?_⟩
          intro p hp
          exact List.infix_cons (hqsf p hp)

theorem splitPunct_sub {l p : Str} (hp : p ∈ splitPunct l) : p <:+: l := by
  obtain ⟨q, qs, heq, hq, hqs⟩ := (spAux_parts l).1
  rw [splitPunct, heq] at hp
  rcases List.mem_cons.mp hp with rfl | hm
  · exact pre_sub hq
  · exact hqs p hm

theorem processItem_some {pickImg : RawItem → Str → Str → Str} {now : Str}
    {item : RawItem} {a : Article} (h : processItem pickImg now item = some a) :
    a.title = clean_text (item.title.getD []) ∧
    a.description = clean_text (item.description.getD []) ∧
    a.content = clean_text (item.content.getD []) ∧
    has_low_value_markers a.title = false ∧
    has_low_value_markers a.description = false ∧
    has_low_value_markers a.content = false ∧
    a.title ≠ [] ∧ a.link ≠ [] := by
  simp only [processItem] at h
  split at h
  · cases h
  · split at h
    · cases h
    · split at h
      · cases h
      · rename_i h1 h2 h3
        injection h with h
        subst h
        simp only [not_or, Bool.not_eq_true] at h1 h2
        refine ⟨rfl, rfl, rfl, h2.2.2, h2.1, h2.2.1, h1.1, ?_⟩
        exact h1.2

theorem mem_ite_singleton {P : Prop} [Decidable P] {w x : Str}
    (h : w ∈ (if P then [x] else ([] : List Str))) : w = x := by
  split at h
  · simpa using h
  · cases h

theorem mFree_whyList (t : Str) : ∀ w ∈ whyList t, mFreeP w := by
  have key : ∀ w ∈ (["Impacto nos mercados e na avaliação de empresas.".data,
      "Mudanças regulatórias podem redefinir o panorama competitivo.".data,
      "Infraestrutura de hardware influencia performance e custo de IA.".data,
      "Avanços de investigação podem abrir novos casos de uso.".data,
      "Relevante para o ecossistema de IA e seus casos de uso.".data] : List Str),
      mFreeP w := by decide
  intro w hw
  simp only [whyList] at hw
  split_ifs at hw <;>
    exact key w (by
      simp only [List.nil_append, List.mem_append, List.mem_singleton,
        List.not_mem_nil, List.mem_cons, or_false, false_or] at hw ⊢
      try tauto)

theorem mFree_bullets {base : Str} (hfree : mFreeP base) (hcol : collapsedStr base) :
    ∀ b ∈ bulletsOf base, mFreeP b := by
  intro b hb
  simp only [bulletsOf] at hb
  obtain ⟨part, hpart, hcond⟩ := List.mem_filterMap.mp hb
  split at hcond
  · injection hcond with hcond
    subst hcond
    have hsub : part <:+: base := splitPunct_sub (List.mem_of_mem_take hpart)
    have hpcol : collapsedStr part := collapsed_of_sub hsub hcol
    rw [clean_of_collapsed hpcol]
    exact mFree_of_sub ((pyStrip_sub part).trans hsub) hfree
  · cases hcond

theorem joinNl_cons_cons (p q : Str) (ps : List Str) :
    joinNl (p :: q :: ps) = p ++ '\n' :: joinNl (q :: ps) := rfl

theorem mFree_pieces {tl : Str} {why bullets : List Str} {source link : Str}
    (htl : mFreeP tl) (hwhy : ∀ w ∈ why, mFreeP w) (hbul : ∀ b ∈ bullets, mFreeP b)
    (hs : mFreeP source) (hl : mFreeP link) :
    ∀ p ∈ (["### TL;DR".data, tl, "\n### Por que importa".data]
      ++ why.map (fun w => "- ".data ++ w)
      ++ (if bullets = [] then []
          else "\n### Detalhes rápidos".data :: bullets.map (fun b => "- ".data ++ b))
      ++ ["\n> Fonte: ".data, "[".data ++ source ++ "](".data ++ link ++ ")".data]),
      mFreeP p := by
  intro p hp
  rcases List.mem_append.mp hp with h | h
  rotate_left
  · rcases List.mem_cons.mp h with rfl | h
    · decide
    · rw [List.mem_singleton.mp h]
      exact mFree_srclink hs hl
  rcases List.mem_append.mp h with h | h
  rotate_left
  · split at h
    · cases h
    · rcases List.mem_cons.mp h with rfl | h
      · decide
      · obtain ⟨b, hb, rfl⟩ := List.mem_map.mp h
        exact mFree_dash (hbul b hb)
  rcases List.mem_append.mp h with h | h
  rotate_left
  · obtain ⟨w, hw, rfl⟩ := List.mem_map.mp h
    exact mFree_dash (hwhy w hw)
  rcases List.mem_cons.mp h with rfl | h
  · decide
  rcases List.mem_cons.mp h with rfl | h
  · exact htl
  rw [List.mem_singleton.mp h]
  decide

theorem enrich_text_eq (title desc content source link : Str) :
    enrich_text title desc content source link =
      pyStrip (joinNl
        (["### TL;DR".data,
          orStr (shorten (shorten (orStr (clean_text content) (clean_text desc)) 700) 240)
            "Resumo breve do que foi anunciado/aconteceu no mundo da IA.".data,
          "\n### Por que importa".data]
         ++ (whyList title).map (fun w => "- ".data ++ w)
         ++ (if bulletsOf (shorten (orStr (clean_text content) (clean_text desc)) 700) = []
             then []
             else "\n### Detalhes rápidos".data ::
               (bulletsOf (shorten (orStr (clean_text content) (clean_text desc)) 700)).map
                 (fun b => "- ".data ++ b))
         ++ ["\n> Fonte: ".data,
             "[".data ++ source ++ "](".data ++ link ++ ")".data])) := rfl

theorem mFree_orStr {a b : Str} (ha : mFreeP a) (hb : mFreeP b) :
    mFreeP (orStr a b) := by
  unfold orStr
  split
  · exact hb
  · exact ha

theorem collapsed_orStr {a b : Str} (ha : collapsedStr a) (hb : collapsedStr b) :
    collapsedStr (orStr a b) := by
  unfold orStr
  split
  · exact hb
  · exact ha

theorem mFree_enrich {title desc content source link : Str}
    (hdc : ∃ r, desc = clean_text r) (hcc : ∃ r, content = clean_text r)
    (hd : mFreeP desc) (hc : mFreeP content)
    (hs : mFreeP source) (hl : mFreeP link) :
    enrich_text title desc content source link ≠ [] ∧
    mFreeP (enrich_text title desc content source link) := by
  have hdclean : clean_text desc = desc := by
    obtain ⟨r, rfl⟩ := hdc; exact clean_idem r
  have hcclean : clean_text content = content := by
    obtain ⟨r, rfl⟩ := hcc; exact clean_idem r
  have hdcol : collapsedStr desc := by
    obtain ⟨r, rfl⟩ := hdc; exact collapsed_clean r
  have hccol : collapsedStr content := by
    obtain ⟨r, rfl⟩ := hcc; exact collapsed_clean r
  have hb0free : mFreeP (orStr (clean_text content) (clean_text desc)) :=
    mFree_orStr (by rw [hcclean]; exact hc) (by rw [hdclean]; exact hd)
  have hb0col : collapsedStr (orStr (clean_text content) (clean_text desc)) :=
    collapsed_orStr (by rw [hcclean]; exact hccol) (by rw [hdclean]; exact hdcol)
  have hbfree : mFreeP (shorten (orStr (clean_text content) (clean_text desc)) 700) :=
    mFree_shorten hb0free hb0col 700
  have hbcol : collapsedStr (shorten (orStr (clean_text content) (clean_text desc)) 700) :=
    collapsed_shorten _ 700
  rw [enrich_text_eq]
  constructor
  · exact @pyStrip_ne_nil _ '#' (by
      simp only [List.cons_append, List.nil_append]
      rw [joinNl_cons_cons]
      exact List.mem_append.mpr (Or.inl (by decide))) (by decide)
  · apply mFree_of_sub (pyStrip_sub _)
    apply mFree_joinNl
    apply mFree_pieces
    · exact mFree_orStr (mFree_shorten hbfree hbcol 240) (by decide)
    · exact mFree_whyList title
    · exact mFree_bullets hbfree hbcol
    · exact hs
    · exact hl

theorem write_post_eq (fs : FS) (a : Article) (today : Str) :
    write_post fs a today =
      (if fsHas fs (make_filename a.title a.pubDate today) then (fs, none)
       else ((make_filename a.title a.pubDate today, build_markdown a today) :: fs,
         some (make_filename a.title a.pubDate today))) := rfl

theorem write_post_skip {fs : FS} {a : Article} {today : Str}
    (h : fsHas fs (make_filename a.title a.pubDate today) = true) :
    write_post fs a today = (fs, none) := by
  rw [write_post_eq, if_pos h]

theorem write_post_keeps {fs : FS} {a : Article} {today p : Str}
    (h : fsHas fs p = true) : fsHas (write_post fs a today).1 p = true := by
  rw [write_post_eq]
  split
  · exact h
  · simp only [fsHas, List.any_cons, Bool.or_eq_true]
    right
    exact h

theorem write_post_adds (fs : FS) (a : Article) (today : Str) :
    fsHas (write_post fs a today).1 (make_filename a.title a.pubDate today) = true := by
  rw [write_post_eq]
  split
  · rename_i h
    exact h
  · simp [fsHas]

theorem runBatch_keeps {fs : FS} {arts : List Article} {today p : Str}
    (h : fsHas fs p = true) : fsHas (runBatch fs arts today) p = true := by
  induction arts generalizing fs with
  | nil => exact h
  | cons a arts ih => exact ih (write_post_keeps h)

theorem runBatch_adds {fs : FS} {arts : List Article} {today : Str} {a : Article}
    (ha : a ∈ arts) :
    fsHas (runBatch fs arts today) (make_filename a.title a.pubDate today) = true := by
  induction arts generalizing fs with
  | nil => cases ha
  | cons b arts ih =>
    rcases List.mem_cons.mp ha with rfl | hm
    · show fsHas (runBatch (write_post fs a today).1 arts today) _ = true
      exact runBatch_keeps (write_post_adds fs a today)
    · exact ih hm

theorem runBatch_skips {fs : FS} {arts : List Article} {today : Str}
    (h : ∀ a ∈ arts, fsHas fs (make_filename a.title a.pubDate today) = true) :
    runBatch fs arts today = fs := by
  induction arts with
  | nil => rfl
  | cons a arts ih =>
    show runBatch (write_post fs a today).1 arts today = fs
    rw [write_post_skip (h a (List.mem_cons_self a arts))]
    exact ih (fun b hb => h b (List.mem_cons_of_mem a hb))

/-- Claim C1: re-running the write loop on the same batch is a no-op — after a
first run every article's deterministic filename exists, so the second run
changes nothing; and for any article whose filename already exists on disk,
`write_post` returns "not written" (`none`) and leaves the directory unchanged. -/
theorem c1_pipeline_idempotent (fs : FS) (arts : List Article) (today : Str) :
    runBatch (runBatch fs arts today) arts today = runBatch fs arts today ∧
    ∀ a : Article, fsHas fs (make_filename a.title a.pubDate today) = true →
      write_post fs a today = (fs, none) := by
  constructor
  · exact runBatch_skips (fun a ha => runBatch_adds ha)
  · exact fun a h => write_post_skip h

/-- Witness for C1: a directory already holding the article's deterministic
filename is returned unchanged together with `none` ("not written"). -/
theorem c1_pipeline_idempotent_witness :
    write_post
      [(make_filename "OpenAI ships new agent".data "2025-09-01T08:00:00Z".data
          "2025-10-12".data, "old content".data)]
      ⟨"OpenAI ships new agent".data, "A description".data, [],
        "https://x.example/a".data, "src".data, "/assets/ai-hero.svg".data,
        "2025-09-01T08:00:00Z".data⟩
      "2025-10-12".data =
    ([(make_filename "OpenAI ships new agent".data "2025-09-01T08:00:00Z".data
        "2025-10-12".data, "old content".data)], none) :=
  (c1_pipeline_idempotent _ [] _).2 _ (by decide)

theorem mainRun_ok_eq (pickImg : RawItem → Str → Str → Str) (now today : Str)
    (fs : FS) (items : List RawItem) :
    mainRun pickImg now today fs (Except.ok items) =
      (if (collectArticles pickImg now items).isEmpty then (0, fs)
       else (0, runBatch fs (collectArticles pickImg now items) today)) := rfl

theorem collect_mem {pickImg : RawItem → Str → Str → Str} {now : Str}
    {items : List RawItem} {a : Article}
    (ha : a ∈ collectArticles pickImg now items) :
    ∃ i ∈ items, processItem pickImg now i = some a := by
  unfold collectArticles at ha
  obtain ⟨i, hi, he⟩ := List.mem_filterMap.mp (List.mem_of_mem_take ha)
  exact ⟨i, hi, he⟩

/-- Claim C10: a run whose candidates are all rejected by the filter or
skipped because their files already exist ends with exit status 0 and writes
nothing — "zero posts created" is a successful no-op. -/
theorem c10_all_rejected_success (pickImg : RawItem → Str → Str → Str)
    (now today : Str) (fs : FS) (items : List RawItem)
    (h : ∀ i ∈ items, ∀ a : Article, processItem pickImg now i = some a →
        fsHas fs (make_filename a.title a.pubDate today) = true) :
    mainRun pickImg now today fs (Except.ok items) = (0, fs) := by
  have hskip : runBatch fs (collectArticles pickImg now items) today = fs := by
    apply runBatch_skips
    intro a ha
    obtain ⟨i, hi, he⟩ := collect_mem ha
    exact h i hi a he
  rw [mainRun_ok_eq]
  split
  · rfl
  · rw [hskip]

/-- Witness for C10: a single raw record with no fields at all is rejected by
normalization, and the run exits 0 leaving the directory empty. -/
theorem c10_all_rejected_success_witness :
    mainRun (fun _ _ _ => GENERIC_FALLBACK) "2025-10-12T00:00:00Z".data
      "2025-10-12".data [] (Except.ok [{}]) = (0, []) :=
  c10_all_rejected_success _ _ _ _ _ (by
    intro i hi a ha
    rw [List.mem_singleton.mp hi] at ha
    rw [show processItem (fun _ _ _ => GENERIC_FALLBACK)
        "2025-10-12T00:00:00Z".data {} = none from by decide] at ha
    cases ha)

/-- Claim C4: normalization rejects any record whose cleaned title or cleaned
link (with the `url` fallback) is empty, and every article it does produce has
a non-empty title and a non-empty link. -/
theorem c4_title_link_required :
    (∀ (pickImg : RawItem → Str → Str → Str) (now : Str) (item : RawItem),
      (clean_text (item.title.getD []) = [] ∨
       orStr (clean_text (item.link.getD [])) (clean_text (item.url.getD [])) = []) →
      processItem pickImg now item = none) ∧
    (∀ (pickImg : RawItem → Str → Str → Str) (now : Str) (item : RawItem)
      (a : Article), processItem pickImg now item = some a →
        a.title ≠ [] ∧ a.link ≠ []) := by
  constructor
  · intro pickImg now item h
    simp only [processItem]
    rw [if_pos h]
  · intro pickImg now item a h
    have hsome := processItem_some h
    exact ⟨hsome.2.2.2.2.2.2.1, hsome.2.2.2.2.2.2.2⟩

/-- Witness for C4: a whitespace-only title is rejected; a full record yields
an article with non-empty title and link. -/
theorem c4_title_link_required_witness :
    processItem (fun _ _ _ => GENERIC_FALLBACK) "2025-10-12T00:00:00Z".data
      { title := some "   ".data, link := some "https://x.example/a".data } = none ∧
    ((⟨"OpenAI ships a new coding agent".data,
        "Markets respond to fresh chip export rules announced this week".data,
        [], "https://x.example/a".data, "source".data, GENERIC_FALLBACK,
        "2025-10-12T00:00:00Z".data⟩ : Article).title ≠ [] ∧
      (⟨"OpenAI ships a new coding agent".data,
        "Markets respond to fresh chip export rules announced this week".data,
        [], "https://x.example/a".data, "source".data, GENERIC_FALLBACK,
        "2025-10-12T00:00:00Z".data⟩ : Article).link ≠ []) :=
  ⟨c4_title_link_required.1 _ _ _ (Or.inl (by decide)),
   c4_title_link_required.2 (fun _ _ _ => GENERIC_FALLBACK)
     "2025-10-12T00:00:00Z".data
     { title := some "OpenAI ships a new coding agent".data,
       description := some "Markets respond to fresh chip export rules announced this week".data,
       link := some "https://x.example/a".data } _ (by decide)⟩

/-- Claim C5 counterexample: a paywall marker that spans the title/description
boundary of the spec's combined text is not detected by the per-field checks —
the filter accepts the item even though the combined text contains
"under construction". -/
theorem c5_counterexample :
    has_low_value_markers (spec_combined_text "City library under".data
      "construction will finish next year say officials".data []) = true ∧
    (processItem (fun _ _ _ => GENERIC_FALLBACK) "2025-10-12T00:00:00Z".data
      { title := some "City library under".data,
        description := some "construction will finish next year say officials".data,
        link := some "https://ex.example/a".data }).isSome = true := by
  constructor
  · decide
  · decide

/-- Claim C5 (amended): the quality filter rejects an article whenever any one
of its cleaned title, description, or content individually contains a paywall
marker, case-insensitively, regardless of length. -/
theorem c5_perfield_marker_rejects (pickImg : RawItem → Str → Str → Str)
    (now : Str) (item : RawItem)
    (h : has_low_value_markers (clean_text (item.title.getD [])) = true ∨
         has_low_value_markers (clean_text (item.description.getD [])) = true ∨
         has_low_value_markers (clean_text (item.content.getD [])) = true) :
    processItem pickImg now item = none := by
  simp only [processItem]
  split
  · rfl
  · rw [if_pos (by tauto)]

/-- Witness for C5 (amended): a description carrying "subscribe to read" is
rejected. -/
theorem c5_perfield_marker_rejects_witness :
    processItem (fun _ _ _ => GENERIC_FALLBACK) "2025-10-12T00:00:00Z".data
      { title := some "Great new AI model arrives".data,
        description := some "subscribe to read the rest of this article".data,
        link := some "https://x.example/b".data } = none :=
  c5_perfield_marker_rejects _ _ _ (Or.inr (Or.inl (by decide)))

/-- Claim C9 counterexample: a 5-character cleaned title — far below the
claimed 10–15 character minimum — passes the quality filter and produces an
article. -/
theorem c9_counterexample :
    (clean_text "AI up".data).length = 5 ∧
    (processItem (fun _ _ _ => GENERIC_FALLBACK) "2025-10-12T00:00:00Z".data
      { title := some "AI up".data,
        description := some "Markets respond to the new chip export rules announced this week".data,
        link := some "https://x.example/b".data }).isSome = true := by
  constructor
  · decide
  · decide

/-- Claim C9 (amended): the filter's acceptance condition, exactly — a
non-empty cleaned title and link, no per-field paywall markers, and not
(title/description near-duplicate with a short description).  No minimum
title length beyond non-emptiness exists. -/
theorem c9_no_min_title_length (pickImg : RawItem → Str → Str → Str)
    (now : Str) (item : RawItem) :
    (processItem pickImg now item).isSome = true ↔
      (clean_text (item.title.getD []) ≠ [] ∧
       orStr (clean_text (item.link.getD [])) (clean_text (item.url.getD [])) ≠ [] ∧
       has_low_value_markers (clean_text (item.description.getD [])) = false ∧
       has_low_value_markers (clean_text (item.content.getD [])) = false ∧
       has_low_value_markers (clean_text (item.title.getD [])) = false ∧
       ¬(too_similar (clean_text (item.title.getD []))
           (clean_text (item.description.getD [])) = true ∧
         (clean_text (item.description.getD [])).length < 60)) := by
  simp only [processItem]
  split
  · rename_i h
    simp only [Option.isSome_none, Bool.false_eq_true, false_iff]
    intro hc
    rcases h with h | h
    · exact hc.1 h
    · exact hc.2.1 h
  · rename_i h1
    split
    · rename_i h2
      simp only [Option.isSome_none, Bool.false_eq_true, false_iff]
      intro hc
      rcases h2 with h | h | h
      · rw [hc.2.2.1] at h; cases h
      · rw [hc.2.2.2.1] at h; cases h
      · rw [hc.2.2.2.2.1] at h; cases h
    · rename_i h2
      split
      · rename_i h3
        simp only [Option.isSome_none, Bool.false_eq_true, false_iff]
        intro hc
        exact hc.2.2.2.2.2 h3
      · rename_i h3
        simp only [Option.isSome_some, true_iff]
        rw [not_or] at h1
        simp only [not_or, Bool.not_eq_true] at h2
        exact ⟨h1.1, h1.2, h2.1, h2.2.1, h2.2.2, h3⟩

/-- Witness for C9 (amended): the acceptance condition evaluated at a full
record. -/
theorem c9_no_min_title_length_witness :
    (processItem (fun _ _ _ => GENERIC_FALLBACK) "2025-10-12T00:00:00Z".data
      { title := some "OpenAI ships a new coding agent".data,
        description := some "Markets respond to fresh chip export rules announced this week".data,
        link := some "https://x.example/a".data }).isSome = true :=
  (c9_no_min_title_length _ _ _).mpr (by decide)

/-- Claim C3: at an article published 2025-09-01 but processed on 2025-10-12,
the filename prefix is the publication date while the front matter carries
`date: 2025-10-12`, the run date — not the `date: 2025-09-01` the claim
requires. -/
theorem c3_frontmatter_date_is_run_date :
    make_filename "OpenAI ships new agent".data "2025-09-01T08:00:00Z".data
        "2025-10-12".data = "_posts/2025-09-01-openai-ships-new-agent.md".data ∧
    isSubB "date: 2025-10-12".data
      (build_markdown ⟨"OpenAI ships new agent".data,
        "A short description of the agent".data, [], "https://x.example/a".data,
        "src".data, GENERIC_FALLBACK, "2025-09-01T08:00:00Z".data⟩
        "2025-10-12".data) = true ∧
    isSubB "date: 2025-09-01".data
      (build_markdown ⟨"OpenAI ships new agent".data,
        "A short description of the agent".data, [], "https://x.example/a".data,
        "src".data, GENERIC_FALLBACK, "2025-09-01T08:00:00Z".data⟩
        "2025-10-12".data) = false := by
  refine ⟨by decide, by decide, by decide⟩

/-- Claim C2 (amended): two articles whose titles agree up to casing and
whitespace and whose publication dates fall on the same day map to the same
deterministic filename, so the second write is skipped and only one post file
appears; the link plays no part in this. -/
theorem c2_filename_dedup (fs : FS) (today : Str) (a1 a2 : Article)
    (_hl : a1.link = a2.link)
    (ht : toLowerStr a1.title = toLowerStr a2.title)
    (hd : a1.pubDate.take 10 = a2.pubDate.take 10) :
    runBatch fs [a1, a2] today = runBatch fs [a1] today := by
  have hslug : slugify a1.title = slugify a2.title := by
    simp only [slugify]
    rw [ht]
  have hdate : (if a1.pubDate = [] then today else a1.pubDate).take 10 =
      (if a2.pubDate = [] then today else a2.pubDate).take 10 := by
    by_cases h1 : a1.pubDate = []
    · have h2 : a2.pubDate = [] := by
        rw [h1] at hd
        simp only [List.take_nil] at hd
        rcases List.take_eq_nil_iff.mp hd.symm with h | h
        · cases h
        · exact h
      rw [h1, h2]
    · have h2 : a2.pubDate ≠ [] := by
        intro h2
        rw [h2] at hd
        simp only [List.take_nil] at hd
        rcases List.take_eq_nil_iff.mp hd with h | h
        · cases h
        · exact h1 h
      rw [if_neg h1, if_neg h2]
      exact hd
  have hpath : make_filename a2.title a2.pubDate today =
      make_filename a1.title a1.pubDate today := by
    simp only [make_filename]
    rw [hslug, hdate]
  have hhas : fsHas (write_post fs a1 today).1
      (make_filename a2.title a2.pubDate today) = true := by
    rw [hpath]
    exact write_post_adds fs a1 today
  show (write_post (write_post fs a1 today).1 a2 today).1 = (write_post fs a1 today).1
  rw [write_post_skip hhas]

/-- Witness for C2 (amended): same link, titles differing only in casing,
same publication day — the second write is a no-op. -/
theorem c2_filename_dedup_witness :
    runBatch []
      [⟨"OpenAI Ships New Agent".data, "A fresh agent platform rollout".data, [],
         "https://x.example/a".data, "src".data, GENERIC_FALLBACK,
         "2025-09-01 08:00:00".data⟩,
       ⟨"OPENAI SHIPS NEW AGENT".data, "A fresh agent platform rollout".data, [],
         "https://x.example/a".data, "src".data, GENERIC_FALLBACK,
         "2025-09-01 11:30:00".data⟩] "2025-10-12".data =
    runBatch []
      [⟨"OpenAI Ships New Agent".data, "A fresh agent platform rollout".data, [],
         "https://x.example/a".data, "src".data, GENERIC_FALLBACK,
         "2025-09-01 08:00:00".data⟩] "2025-10-12".data :=
  c2_filename_dedup _ _ _ _ (by decide) (by decide) (by decide)

/-- Claim C2 counterexample: the same link and case-insensitively equal titles
do not prevent a second post when the publication dates differ — there is no
link-keyed (or any) seen-set in the code, and both files get written. -/
theorem c2_counterexample :
    (runBatch [] (collectArticles (fun _ _ _ => GENERIC_FALLBACK)
      "2025-10-12T00:00:00Z".data
      [{ title := some "OpenAI Ships New Agent".data,
         description := some "A fresh agent platform rollout reaches developers worldwide".data,
         link := some "https://x.example/a".data,
         pubDate := some "2025-09-01 08:00:00".data },
       { title := some "OPENAI SHIPS NEW AGENT".data,
         description := some "A fresh agent platform rollout reaches developers worldwide".data,
         link := some "https://x.example/a".data,
         pubDate := some "2025-09-02 08:00:00".data }]) "2025-10-12".data).length
      = 2 := by
  decide

theorem download_some_ne_nil {http : Str → Option ImgResp} {sha8 : Str → Str}
    {url title s : Str}
    (h : download_and_cache_image http sha8 url title = some s) : s ≠ [] := by
  unfold download_and_cache_image at h
  split at h
  · cases h
  · split at h
    · cases h
    · split at h
      · cases h
      · injection h with h
        subst h
        simp

theorem tryImageUrl_some {dl : Str → Option Str} {u : Option Str} {s : Str}
    (h : tryImageUrl dl u = some s) : ∃ url, dl url = some s := by
  unfold tryImageUrl at h
  split at h
  · cases h
  · split at h
    · exact ⟨_, h⟩
    · cases h

theorem orElse_some {α : Type} {a b : Option α} {s : α}
    (h : (a <|> b) = some s) : a = some s ∨ b = some s := by
  cases a with
  | none => right; simpa using h
  | some x => left; simpa using h

theorem rotate_all_ne_nil : ∀ p ∈ ROTATE_CANDIDATES, p ≠ [] := by decide

theorem pick_rotating_hero_eq (md5n : Str → Nat) (fileExists : Str → Bool)
    (title : Str) :
    pick_rotating_hero md5n fileExists title =
      (if (ROTATE_CANDIDATES.filter (fun p => fileExists (lstripSlash p))).isEmpty
       then GENERIC_FALLBACK
       else (ROTATE_CANDIDATES.filter (fun p => fileExists (lstripSlash p))).getD
         (md5n title % (ROTATE_CANDIDATES.filter
           (fun p => fileExists (lstripSlash p))).length) GENERIC_FALLBACK) := rfl

theorem pick_rotating_hero_ne_nil (md5n : Str → Nat) (fileExists : Str → Bool)
    (title : Str) : pick_rotating_hero md5n fileExists title ≠ [] := by
  rw [pick_rotating_hero_eq]
  split
  · decide
  · rw [List.getD_eq_getElem?_getD]
    cases hx : (ROTATE_CANDIDATES.filter
        (fun p => fileExists (lstripSlash p)))[md5n title %
          (ROTATE_CANDIDATES.filter (fun p => fileExists (lstripSlash p))).length]? with
    | none => simp only [hx, Option.getD_none]; decide
    | some v =>
      simp only [hx, Option.getD_some]
      exact rotate_all_ne_nil v
        (List.mem_of_mem_filter (List.getElem?_mem hx))

theorem pick_rotating_hero_no_files (md5n : Str → Nat) (title : Str) :
    pick_rotating_hero md5n (fun _ => false) title = GENERIC_FALLBACK := by
  rw [pick_rotating_hero_eq]
  simp

theorem pick_image_eq (http : Str → Option ImgResp) (sha8 : Str → Str)
    (md5n : Str → Nat) (fileExists : Str → Bool) (item : RawItem)
    (title desc : Str) :
    pick_image_for_article http sha8 md5n fileExists item title desc =
      (match tryImageUrl (fun url => download_and_cache_image http sha8 url title)
          item.image_url
        <|> tryImageUrl (fun url => download_and_cache_image http sha8 url title)
          item.image
        <|> tryImageUrl (fun url => download_and_cache_image http sha8 url title)
          item.source_icon
        <|> tryImageUrl (fun url => download_and_cache_image http sha8 url title)
          item.sourceIconNested with
      | some loc => loc
      | none =>
        match detect_topic title desc with
        | some topic =>
          match topicHero topic with
          | some cand =>
            if fileExists (lstripSlash cand) then cand
            else pick_rotating_hero md5n fileExists title
          | none => pick_rotating_hero md5n fileExists title
        | none => pick_rotating_hero md5n fileExists title) := rfl

theorem topicHero_ne_nil {k c : Str} (h : topicHero k = some c) : c ≠ [] := by
  unfold topicHero at h
  cases hf : TOPIC_HEROES.find? (fun e => e.1 == k) with
  | none => rw [hf] at h; cases h
  | some e =>
    rw [hf] at h
    injection h with h
    subst h
    have hm : e ∈ TOPIC_HEROES := List.mem_of_find?_eq_some hf
    have hall : ∀ x ∈ TOPIC_HEROES, x.2 ≠ [] := by decide
    exact hall e hm

/-- Claim C6: image resolution is total — for every oracle behaviour the chain
returns a non-empty reference; and when every download fails and no topic or
rotating asset exists on disk it falls through to the fixed fallback
`/assets/ai-hero.svg`. -/
theorem c6_image_resolution_total :
    (∀ (http : Str → Option ImgResp) (sha8 : Str → Str) (md5n : Str → Nat)
      (fileExists : Str → Bool) (item : RawItem) (title desc : Str),
      pick_image_for_article http sha8 md5n fileExists item title desc ≠ []) ∧
    (∀ (sha8 : Str → Str) (md5n : Str → Nat) (item : RawItem) (title desc : Str),
      pick_image_for_article (fun _ => none) sha8 md5n (fun _ => false)
        item title desc = GENERIC_FALLBACK) := by
  constructor
  · intro http sha8 md5n fileExists item title desc
    rw [pick_image_eq]
    split
    · rename_i loc hloc
      rcases orElse_some hloc with h | h
      · obtain ⟨u, hu⟩ := tryImageUrl_some h
        exact download_some_ne_nil hu
      rcases orElse_some h with h | h
      · obtain ⟨u, hu⟩ := tryImageUrl_some h
        exact download_some_ne_nil hu
      rcases orElse_some h with h | h
      · obtain ⟨u, hu⟩ := tryImageUrl_some h
        exact download_some_ne_nil hu
      · obtain ⟨u, hu⟩ := tryImageUrl_some h
        exact download_some_ne_nil hu
    · split
      · split
        · split
          · rename_i cand hth _
            exact topicHero_ne_nil hth
          · exact pick_rotating_hero_ne_nil _ _ _
        · exact pick_rotating_hero_ne_nil _ _ _
      · exact pick_rotating_hero_ne_nil _ _ _
  · intro sha8 md5n item title desc
    rw [pick_image_eq]
    have hdl : ∀ u : Option Str,
        tryImageUrl (fun url => download_and_cache_image (fun _ => none) sha8 url title)
          u = none := by
      intro u
      unfold tryImageUrl
      split
      · rfl
      · split
        · rfl
        · rfl
    rw [hdl, hdl, hdl, hdl]
    simp only [Option.none_orElse]
    split
    · split
      · rw [if_neg (by simp)]
        exact pick_rotating_hero_no_files _ _
      · exact pick_rotating_hero_no_files _ _
    · exact pick_rotating_hero_no_files _ _


theorem collapseWS_no_space {l : Str} (h : ∀ c ∈ l, isSpacePy c = false) :
    collapseWS l = l := by
  induction l with
  | nil => rfl
  | cons c rest ih =>
    rw [collapseWS_cons, ih (fun x hx => h x (List.mem_cons_of_mem c hx))]
    unfold csStep
    rw [h c (List.mem_cons_self c rest)]
    simp

theorem trimL_no_space {l : Str} (h : ∀ c ∈ l, isSpacePy c = false) :
    trimL l = l := by
  cases l with
  | nil => rfl
  | cons c rest =>
    simp only [trimL, List.dropWhile]
    rw [h c (List.mem_cons_self c rest)]

theorem trimR_no_space {l : Str} (h : ∀ c ∈ l, isSpacePy c = false) :
    trimR l = l := by
  induction l with
  | nil => rfl
  | cons c rest ih =>
    simp only [trimR, ih (fun x hx => h x (List.mem_cons_of_mem c hx))]
    rw [h c (List.mem_cons_self c rest)]
    simp

theorem clean_text_no_space {l : Str} (h : ∀ c ∈ l, isSpacePy c = false) :
    clean_text l = l := by
  unfold clean_text pyStrip
  rw [collapseWS_no_space h, trimL_no_space h, trimR_no_space h]

theorem brSubF_no_lt {l : Str} (h : ∀ c ∈ l, c ≠ '<') (fuel : Nat) :
    brSubF fuel l = l := by
  induction l generalizing fuel with
  | nil => cases fuel <;> rfl
  | cons c rest ih =>
    cases fuel with
    | zero => rfl
    | succ n =>
      show (if c = '<' then _ else c :: brSubF n rest) = c :: rest
      rw [if_neg (h c (List.mem_cons_self c rest))]
      rw [ih (fun x hx => h x (List.mem_cons_of_mem c hx)) n]

theorem stripTagsF_no_lt {l : Str} (h : ∀ c ∈ l, c ≠ '<') (fuel : Nat) :
    stripTagsF fuel l = l := by
  induction l generalizing fuel with
  | nil => cases fuel <;> rfl
  | cons c rest ih =>
    cases fuel with
    | zero => rfl
    | succ n =>
      show (if c = '<' then _ else c :: stripTagsF n rest) = c :: rest
      rw [if_neg (h c (List.mem_cons_self c rest))]
      rw [ih (fun x hx => h x (List.mem_cons_of_mem c hx)) n]

theorem strip_html_plain {l : Str} (h : ∀ c ∈ l, c ≠ '<' ∧ isSpacePy c = false) :
    strip_html l = l := by
  unfold strip_html
  split
  · rename_i hnil
    exact hnil.symm
  · unfold brSub
    rw [brSubF_no_lt (fun c hc => (h c hc).1) l.length]
    unfold stripTags
    rw [stripTagsF_no_lt (fun c hc => (h c hc).1) l.length]
    unfold pyStrip
    rw [trimL_no_space (fun c hc => (h c hc).2),
      trimR_no_space (fun c hc => (h c hc).2)]

/-- Claim C7 counterexample: an article with a non-empty description but no
raw content is routed through `expand_article` and comes out far below the
500-character minimum — the claimed floor does not hold merely because "any
raw content/description exists". -/
theorem c7_counterexample :
    "Short desc.".data ≠ [] ∧
    (expand_article [] "Short desc.".data [] "src".data).length < MIN_BODY_CHARS := by
  constructor
  · decide
  · decide

/-- Claim C7 (amended): the enriched body does reach the 500-character floor
whenever the whitespace-collapsed raw content is at least 495 characters long
(so the padding step, or the body itself, clears the minimum). -/
theorem c7_enrichment_floor (title desc rawC source : Str)
    (h : 495 ≤ (clean_text (strip_html rawC)).length) :
    MIN_BODY_CHARS ≤ (expand_article title desc rawC source).length := by
  have hcne : strip_html rawC ≠ [] := by
    intro hnil
    rw [hnil, show clean_text [] = [] from rfl] at h
    simp at h
  unfold expand_article expandPad
  split
  · rename_i hcond
    rw [List.length_append, List.length_append, List.length_append,
      List.length_take, show ("\n\n".data).length = 2 from by decide,
      show ("...".data).length = 3 from by decide]
    unfold MIN_BODY_CHARS
    omega
  · rename_i hcond
    rw [not_and_or] at hcond
    rcases hcond with hlen | hc
    · unfold MIN_BODY_CHARS at hlen ⊢
      omega
    · exact absurd (not_not.mp hc) hcne

/-- Witness for C7 (amended): 500 characters of plain raw content push the
body over the floor. -/
theorem c7_enrichment_floor_witness :
    MIN_BODY_CHARS ≤
      (expand_article [] [] (List.replicate 500 'a') "src".data).length := by
  have hmem : ∀ c ∈ List.replicate 500 'a', c ≠ '<' ∧ isSpacePy c = false := by
    intro c hc
    rw [List.eq_of_mem_replicate hc]
    decide
  refine c7_enrichment_floor _ _ _ _ ?_
  rw [strip_html_plain hmem, clean_text_no_space (fun c hc => (hmem c hc).2),
    List.length_replicate]
  omega

/-- Claim C8 counterexample: an article that passes the fetch filter but whose
source name is itself a paywall phrase produces a body containing that marker
— the attribution line embeds the source name verbatim. -/
theorem c8_counterexample :
    processItem (fun _ _ _ => GENERIC_FALLBACK) "2025-10-12T00:00:00Z".data
      { title := some "OpenAI ships a new coding agent".data,
        description := some "Markets respond to fresh chip export rules announced this week".data,
        link := some "https://x.example/a".data,
        source_id := some "Subscribe to read".data } =
      some ⟨"OpenAI ships a new coding agent".data,
        "Markets respond to fresh chip export rules announced this week".data,
        [], "https://x.example/a".data, "Subscribe to read".data,
        GENERIC_FALLBACK, "2025-10-12T00:00:00Z".data⟩ ∧
    has_low_value_markers (enrich_text
      "OpenAI ships a new coding agent".data
      "Markets respond to fresh chip export rules announced this week".data
      [] "Subscribe to read".data "https://x.example/a".data) = true := by
  constructor
  · decide
  · decide

/-- Claim C8 (amended): every body the pipeline writes is non-empty; and it
contains no paywall marker provided the article's source name and link are
themselves marker-free (title, description and content are already guaranteed
marker-free by the fetch filter). -/
theorem c8_body_nonempty_markerfree (pickImg : RawItem → Str → Str → Str)
    (now : Str) (item : RawItem) (a : Article)
    (h : processItem pickImg now item = some a)
    (hs : has_low_value_markers a.source_id = false)
    (hl : has_low_value_markers a.link = false) :
    enrich_text a.title a.description a.content a.source_id a.link ≠ [] ∧
    has_low_value_markers
      (enrich_text a.title a.description a.content a.source_id a.link) = false := by
  obtain ⟨-, hdeq, hceq, -, hdm, hcm, -, -⟩ := processItem_some h
  have hres := @mFree_enrich a.title a.description a.content a.source_id a.link
    ⟨_, hdeq⟩ ⟨_, hceq⟩
    ((hasLVM_false_iff _).mp hdm) ((hasLVM_false_iff _).mp hcm)
    ((hasLVM_false_iff _).mp hs) ((hasLVM_false_iff _).mp hl)
  exact ⟨hres.1, (hasLVM_false_iff _).mpr hres.2⟩

/-- Witness for C8 (amended): evaluated at a full record with a clean source
and link. -/
theorem c8_body_nonempty_markerfree_witness :
    enrich_text "OpenAI ships a new coding agent".data
      "Markets respond to fresh chip export rules announced this week".data
      [] "source".data "https://x.example/a".data ≠ [] ∧
    has_low_value_markers (enrich_text
      "OpenAI ships a new coding agent".data
      "Markets respond to fresh chip export rules announced this week".data
      [] "source".data "https://x.example/a".data) = false :=
  c8_body_nonempty_markerfree (fun _ _ _ => GENERIC_FALLBACK)
    "2025-10-12T00:00:00Z".data
    { title := some "OpenAI ships a new coding agent".data,
      description := some "Markets respond to fresh chip export rules announced this week".data,
      link := some "https://x.example/a".data }
    ⟨"OpenAI ships a new coding agent".data,
      "Markets respond to fresh chip export rules announced this week".data,
      [], "https://x.example/a".data, "source".data, GENERIC_FALLBACK,
      "2025-10-12T00:00:00Z".data⟩
    (by decide) (by decide) (by decide)
